import Mathlib

/-!
# Verification of the xpool object-pool library (Go)

Shallow embedding of the `xpool` repository: a type-safe object pool built on
an untyped free-list store (Go's `sync.Pool`), with reset dispatch at
acquisition and release time.

Modelling conventions:
* The untyped store (`sync.Pool`) is modelled as a `List A`, where `A` stands
  for Go's `any`.  `storeGet` pops the head (returning `none` on empty),
  `Put` appends; the pool logic never depends on the store's order.
* Go's type assertion `x.(T)` on a stored `any` is modelled by a projection
  `proj : A → Option T`, with `inj : T → A` the corresponding injection;
  the assertion succeeds exactly when `proj` returns `some`.
* Pooled objects are reference-like in Go (a reset mutates the pointee); we
  model mutation functionally: a resetter takes the object and returns the
  updated object.
* A Go panic is modelled with `Except`: `Except.error` is an uncaught panic
  propagating to the caller.
* Observable effects (constructor invocations, reset-dispatch attempts,
  actual `Reset` method calls, observer-callback invocations, handing a
  value to the store) are recorded in an event trace `List (Ev S A)`.
  Observer callbacks are identified by a `Nat` id; invoking callback `id`
  with boolean outcome `ok` is the event `Ev.cb id ok`.
-/

/-- Observable events of a pool operation.  `S` is the declared state type of
a stateful pool, `A` the untyped store element type. -/
inductive Ev (S A : Type) where
  /-- the typed pool invoked the caller-supplied constructor -/
  | ctorCall : Ev S A
  /-- a reset-dispatch function was invoked with the given state; `ok` tells
  whether the capability check succeeded (a `Reset` was actually called) -/
  | attempt (state : S) (ok : Bool) : Ev S A
  /-- the object's `Reset` method was actually invoked with the given state -/
  | resetCall (state : S) : Ev S A
  /-- observer callback `id` was invoked with outcome `ok` -/
  | cb (id : Nat) (ok : Bool) : Ev S A
  /-- a value was handed to the underlying free-list store -/
  | storePut (a : A) : Ev S A
deriving DecidableEq

/-- The callback invocations of a trace, in order: pairs (callback id, outcome). -/
def cbOut {S A : Type} (evs : List (Ev S A)) : List (Nat × Bool) :=
  evs.filterMap fun e =>
    match e with
    | .cb id ok => some (id, ok)
    | _ => none

/-- The states of the reset-dispatch attempts of a trace, in order. -/
def attemptStates {S A : Type} (evs : List (Ev S A)) : List S :=
  evs.filterMap fun e =>
    match e with
    | .attempt s _ => some s
    | _ => none

/-- The states of the actual `Reset` method invocations of a trace, in order. -/
def resetStates {S A : Type} (evs : List (Ev S A)) : List S :=
  evs.filterMap fun e =>
    match e with
    | .resetCall s => some s
    | _ => none

/-- Number of constructor invocations recorded in a trace. -/
def ctorCount {S A : Type} (evs : List (Ev S A)) : Nat :=
  evs.countP fun e =>
    match e with
    | .ctorCall => true
    | _ => false

/-- Number of invocations of the observer callback with the given id. -/
def cbCount {S A : Type} (g : Nat) (evs : List (Ev S A)) : Nat :=
  evs.countP fun e =>
    match e with
    | .cb id _ => id == g
    | _ => false

/-- Pop the head of the free-list store, as Go's `sync.Pool.Get`: returns
`none` when the store is empty. -/
def storeGet {A : Type} (store : List A) : Option A × List A :=
  match store with
  | [] => (none, [])
  | a :: rest => (some a, rest)

namespace xpool

/-!
Embedding of `src/pool.go` (the current variant, lines 1–130):

```go
type simplePool[T any] struct {
    pool     Pool[any]
    ctor     func() T
    resetter func(T)
}
```

`ctor` may panic (modelled with `Except E`); `resetter` may be nil
(modelled with `Option`); a resetter may emit events (the monadic package
installs event-emitting dispatchers here).
-/

/-- `simplePool[T]` of `src/pool.go`: the untyped store plus a typed
constructor and an optional put-time resetter (`nil` ↦ `none`). -/
structure simplePool (S T A E : Type) where
  ctor : Unit → Except E T
  resetter : Option (T → T × List (Ev S A))
  inj : T → A
  proj : A → Option T

/-- `NewWithResetter` of `src/pool.go` (lines 75–84): stores the constructor
and the (possibly nil) resetter verbatim; construction cannot fail. -/
def NewWithResetter {S T A E : Type} (ctor : Unit → Except E T)
    (resetter : Option (T → T × List (Ev S A)))
    (inj : T → A) (proj : A → Option T) : simplePool S T A E :=
  { ctor := ctor, resetter := resetter, inj := inj, proj := proj }

/-- `New` of `src/pool.go`: `NewWithResetter` with a nil resetter. -/
def New {S T A E : Type} (ctor : Unit → Except E T)
    (inj : T → A) (proj : A → Option T) : simplePool S T A E :=
  NewWithResetter ctor none inj proj

/-- `simplePool.Get` of `src/pool.go` (lines 116–123):
`object, ok := p.pool.Get().(T); if !ok { object = p.ctor() }; return object`.
The store pop and the type assertion are fused in `Option.bind`; a
constructor panic propagates as `Except.error`. -/
def simplePool.Get {S T A E : Type} (p : simplePool S T A E) (store : List A) :
    Except E (T × List A × List (Ev S A)) :=
  let fetched := storeGet store
  match fetched.1.bind p.proj with
  | some object => .ok (object, fetched.2, [])
  | none =>
    match p.ctor () with
    | .ok object => .ok (object, fetched.2, [.ctorCall])
    | .error e => .error e

/-- `simplePool.Put` of `src/pool.go` (lines 125–131):
`if p.resetter != nil { p.resetter(object) }; p.pool.Put(object)`.
Returns the new store and the trace. -/
def simplePool.Put {S T A E : Type} (p : simplePool S T A E) (object : T)
    (store : List A) : List A × List (Ev S A) :=
  match p.resetter with
  | some r =>
    let rr := r object
    (store ++ [p.inj rr.1], rr.2 ++ [.storePut (p.inj rr.1)])
  | none => (store ++ [p.inj object], [.storePut (p.inj object)])

end xpool

namespace monadicpool

/-!
Embedding of `src/monadicpool/pool.go`.

Go decides `any(object).(Resetter[S])` from the dynamic type of `object`;
`T` is often an interface type, so the outcome is per value.  We model the
assertion by a parameter `isR : T → Bool` (does the value's dynamic type
implement `Reset` with argument type exactly `S`?) and the bound method by
`reset : T → S → T` (the updated object after `Reset(state)`).
The Go zero value `var zero S` is the parameter `sZero`.
-/

/-- `buildDefaultResetter` of `src/monadicpool/pool.go` (lines 111–124):
type-assert the object to `Resetter[S]`; when the assertion succeeds call
`Reset(state)`; then invoke every registered callback, in registration
order, with the assertion outcome.  The invocation itself is recorded as an
`Ev.attempt` event. -/
def buildDefaultResetter {S T A : Type} (isR : T → Bool) (reset : T → S → T)
    (onResets : List Nat) : T → S → T × List (Ev S A) :=
  fun object state =>
    let ok := isR object
    let object' := if ok then reset object state else object
    (object',
      .attempt state ok ::
        ((if ok then [.resetCall state] else []) ++
          onResets.map fun id => .cb id ok))

/-- `resettableMonadicPool[S, T]` of `src/monadicpool/pool.go`: wraps the
`xpool` simple pool (whose resetter is the put-time hook) and keeps the
get-time resetter. -/
structure resettableMonadicPool (S T A E : Type) where
  pool : xpool.simplePool S T A E
  resetter : T → S → T × List (Ev S A)

/-- `newWithResetters` of `src/monadicpool/pool.go` (lines 146–157):
builds the underlying `xpool.NewWithResetter` with the put-time hook and
keeps the get-time hook. -/
def newWithResetters {S T A E : Type} (ctor : Unit → Except E T)
    (onGetResetter : T → S → T × List (Ev S A))
    (onPutResetter : T → T × List (Ev S A))
    (inj : T → A) (proj : A → Option T) : resettableMonadicPool S T A E :=
  { pool := xpool.NewWithResetter ctor (some onPutResetter) inj proj
    resetter := onGetResetter }

/-- `New` of `src/monadicpool/pool.go` (lines 86–108): wires the default
capability-detecting dispatcher on both sides; the put side is applied with
`var zero S`.  `onGetResets` / `onPutResets` are the callback ids collected
by `WithOnGetResetCallback` / `WithOnPutResetCallback`, in registration
order. -/
def New {S T A E : Type} (ctor : Unit → Except E T) (sZero : S)
    (isR : T → Bool) (reset : T → S → T)
    (onGetResets onPutResets : List Nat)
    (inj : T → A) (proj : A → Option T) : resettableMonadicPool S T A E :=
  let onGetResetter := buildDefaultResetter isR reset onGetResets
  let onPutResetter := buildDefaultResetter (A := A) isR reset onPutResets
  newWithResetters ctor onGetResetter
    (fun object => onPutResetter object sZero) inj proj

/-- `NewWithResetter` of `src/monadicpool/pool.go` (lines 131–144): one
caller-supplied `customResetter` is used as the get-time hook, and, applied
at `var zero S`, as the put-time hook. -/
def NewWithResetter {S T A E : Type} (ctor : Unit → Except E T) (sZero : S)
    (customResetter : T → S → T × List (Ev S A))
    (inj : T → A) (proj : A → Option T) : resettableMonadicPool S T A E :=
  newWithResetters ctor customResetter
    (fun object => customResetter object sZero) inj proj

/-- `resettableMonadicPool.Get` of `src/monadicpool/pool.go` (lines 164–170):
`object := p.pool.Get(); p.resetter(object, state); return object`. -/
def resettableMonadicPool.Get {S T A E : Type}
    (p : resettableMonadicPool S T A E) (state : S) (store : List A) :
    Except E (T × List A × List (Ev S A)) :=
  match p.pool.Get store with
  | .error e => .error e
  | .ok (object, store', evs) =>
    let rr := p.resetter object state
    .ok (rr.1, store', evs ++ rr.2)

/-- `resettableMonadicPool.Put` of `src/monadicpool/pool.go` (lines 172–174):
delegates to the wrapped pool's `Put` (which runs the put-time hook). -/
def resettableMonadicPool.Put {S T A E : Type}
    (p : resettableMonadicPool S T A E) (object : T) (store : List A) :
    List A × List (Ev S A) :=
  p.pool.Put object store

/-- A sequence of acquire/release cycles: for each state in `states`, `Get`
with that state then `Put` the returned object.  Returns the final store and
the concatenated trace. -/
def cycles {S T A E : Type} (p : resettableMonadicPool S T A E)
    (states : List S) (store : List A) :
    Except E (List A × List (Ev S A)) :=
  match states with
  | [] => .ok (store, [])
  | s :: rest =>
    match p.Get s store with
    | .error e => .error e
    | .ok (object, store1, evG) =>
      let pr := p.Put object store1
      match cycles p rest pr.1 with
      | .error e => .error e
      | .ok (store3, evs) => .ok (store3, evG ++ pr.2 ++ evs)

end monadicpool

namespace xpoolLegacy

/-!
Embedding of the earlier `xpool` variant of `src/pool.go` (lines 221–352),
the one defining `resettablePool`: there `simplePool` has no resetter at all
(`Put` stores directly) and `NewWithResetter` wraps it in `resettablePool`,
whose `Put` calls `p.resetter(obj)` unconditionally — calling a nil function
value is a Go runtime panic, modelled as `Except.error`.
-/

/-- Runtime failures of the legacy variant. -/
inductive RtError where
  /-- Go panic raised by calling a nil function value -/
  | nilFunctionCall : RtError
deriving DecidableEq

/-- `simplePool[T]` of the legacy variant: constructor plus store, no reset
logic. -/
structure simplePool (T A : Type) where
  ctor : Unit → T
  inj : T → A
  proj : A → Option T

/-- Legacy `New`: builds the simple pool. -/
def New {T A : Type} (ctor : Unit → T) (inj : T → A) (proj : A → Option T) :
    simplePool T A :=
  { ctor := ctor, inj := inj, proj := proj }

/-- Legacy `simplePool.Get`: pop and type-assert, falling back to the
constructor. -/
def simplePool.Get {T A : Type} (p : simplePool T A) (store : List A) :
    T × List A :=
  let fetched := storeGet store
  match fetched.1.bind p.proj with
  | some obj => (obj, fetched.2)
  | none => (p.ctor (), fetched.2)

/-- Legacy `simplePool.Put`: `p.pool.Put(obj)` — store directly. -/
def simplePool.Put {T A : Type} (p : simplePool T A) (obj : T)
    (store : List A) : List A :=
  store ++ [p.inj obj]

/-- `resettablePool[T]` of `src/pool.go` (lines 339–342): a wrapped pool and
a resetter function (`nil` ↦ `none`). -/
structure resettablePool (T A : Type) where
  pool : simplePool T A
  resetter : Option (T → T)

/-- Legacy `NewWithResetter` (the `resettablePool` constructor): stores the
resetter verbatim, with no nil check, and cannot fail. -/
def NewWithResetter {T A : Type} (ctor : Unit → T)
    (resetter : Option (T → T)) (inj : T → A) (proj : A → Option T) :
    resettablePool T A :=
  { pool := New ctor inj proj, resetter := resetter }

/-- `resettablePool.Get` of `src/pool.go` (lines 344–346): delegate. -/
def resettablePool.Get {T A : Type} (p : resettablePool T A)
    (store : List A) : T × List A :=
  p.pool.Get store

/-- `resettablePool.Put` of `src/pool.go` (lines 348–352):
`p.resetter(obj); p.pool.Put(obj)` — the resetter is called unconditionally,
so a nil resetter panics here, at the first `Put`. -/
def resettablePool.Put {T A : Type} (p : resettablePool T A) (obj : T)
    (store : List A) : Except RtError (List A) :=
  match p.resetter with
  | none => .error .nilFunctionCall
  | some r => .ok (p.pool.Put (r obj) store)

end xpoolLegacy

namespace resetter

/-!
Embedding of `src/resetter/pool_resetter_niladic.go`: `PoolResetter[R]`, a
pool specialised to a compile-time `Resetter` constraint (`R` always has a
niladic `Reset`, modelled as a total function `reset : R → R`).
-/

/-- `PoolResetter[R]`: the wrapped `xpool` pool plus the `Reset` method that
the `Resetter` constraint guarantees on `R`. -/
structure PoolResetter (R A : Type) where
  pool : xpoolLegacy.simplePool R A
  reset : R → R

/-- `NewPool` of `src/resetter/pool_resetter_niladic.go`. -/
def NewPool {R A : Type} (ctor : Unit → R) (reset : R → R)
    (inj : R → A) (proj : A → Option R) : PoolResetter R A :=
  { pool := xpoolLegacy.New ctor inj proj, reset := reset }

/-- `PoolResetter.Get`: delegate to the wrapped pool. -/
def PoolResetter.Get {R A : Type} (p : PoolResetter R A) (store : List A) :
    R × List A :=
  p.pool.Get store

/-- `PoolResetter.Put` (lines 32–36): `resetter.Reset()` then
`p.pool.Put(resetter)` — the reset runs before the value reaches the
store. -/
def PoolResetter.Put {R A : Type} (p : PoolResetter R A) (r : R)
    (store : List A) : List A :=
  p.pool.Put (p.reset r) store

end resetter

namespace xpool2

/-!
Embedding of the `xpool` variant of `src/pool.go` (lines 131–220) that the
`stateful` package builds on: `simplePool` with an `onPutResetter` field and
the constructor `NewWithCustomResetter`.  Constructor panics are not needed
for the claims on this path, so `ctor` is total here.
-/

/-- `simplePool[T]` of the `NewWithCustomResetter` variant. -/
structure simplePool (S T A : Type) where
  ctor : Unit → T
  onPutResetter : Option (T → T × List (Ev S A))
  inj : T → A
  proj : A → Option T

/-- `NewWithCustomResetter`: stores constructor and put-time resetter. -/
def NewWithCustomResetter {S T A : Type} (ctor : Unit → T)
    (onPutResetter : Option (T → T × List (Ev S A)))
    (inj : T → A) (proj : A → Option T) : simplePool S T A :=
  { ctor := ctor, onPutResetter := onPutResetter, inj := inj, proj := proj }

/-- `simplePool.Get` of the variant: pop, type-assert, fall back to the
constructor. -/
def simplePool.Get {S T A : Type} (p : simplePool S T A) (store : List A) :
    T × List A × List (Ev S A) :=
  let fetched := storeGet store
  match fetched.1.bind p.proj with
  | some object => (object, fetched.2, [])
  | none => (p.ctor (), fetched.2, [.ctorCall])

/-- `simplePool.Put` of the variant: run `onPutResetter` when non-nil, then
store. -/
def simplePool.Put {S T A : Type} (p : simplePool S T A) (object : T)
    (store : List A) : List A × List (Ev S A) :=
  match p.onPutResetter with
  | some r =>
    let rr := r object
    (store ++ [p.inj rr.1], rr.2 ++ [.storePut (p.inj rr.1)])
  | none => (store ++ [p.inj object], [.storePut (p.inj object)])

end xpool2

namespace stateful

/-!
Embedding of `src/stateful/pool.go`.  `New` constrains `T` to implement
`Resetter[S]` at compile time, so the `Reset` method is always present:
it is the total parameter `reset : T → S → T`, and each invocation is
recorded as an `Ev.resetCall` event.  There is no capability check and no
observer-callback mechanism anywhere in this package.
-/

/-- `resettableMonadicPool[S, T]` of `src/stateful/pool.go`. -/
structure resettableMonadicPool (S T A : Type) where
  pool : xpool2.simplePool S T A
  resetter : T → S → T × List (Ev S A)

/-- `newWithResetters` of `src/stateful/pool.go`: wrap
`xpool.NewWithCustomResetter` with the put-time hook, keep the get-time
hook. -/
def newWithResetters {S T A : Type} (ctor : Unit → T)
    (onGetResetter : T → S → T × List (Ev S A))
    (onPutResetter : T → T × List (Ev S A))
    (inj : T → A) (proj : A → Option T) : resettableMonadicPool S T A :=
  { pool := xpool2.NewWithCustomResetter ctor (some onPutResetter) inj proj
    resetter := onGetResetter }

/-- `New` of `src/stateful/pool.go` (lines 59–73): `T` is a `Resetter[S]`;
both hooks call `object.Reset` directly — with the supplied state on the
get side, with `var zero S` on the put side. -/
def New {S T A : Type} (ctor : Unit → T) (sZero : S) (reset : T → S → T)
    (inj : T → A) (proj : A → Option T) : resettableMonadicPool S T A :=
  newWithResetters ctor
    (fun object state => (reset object state, [.resetCall state]))
    (fun object => (reset object sZero, [.resetCall sZero]))
    inj proj

/-- `resettableMonadicPool.Get` of `src/stateful/pool.go`: fetch, apply the
get-time resetter with the supplied state, return the object. -/
def resettableMonadicPool.Get {S T A : Type}
    (p : resettableMonadicPool S T A) (state : S) (store : List A) :
    T × List A × List (Ev S A) :=
  let g := p.pool.Get store
  let rr := p.resetter g.1 state
  (rr.1, g.2.1, g.2.2 ++ rr.2)

/-- `resettableMonadicPool.Put` of `src/stateful/pool.go`: delegate to the
wrapped pool (which runs the put-time hook before storing). -/
def resettableMonadicPool.Put {S T A : Type}
    (p : resettableMonadicPool S T A) (object : T) (store : List A) :
    List A × List (Ev S A) :=
  p.pool.Put object store

end stateful

namespace raw

/-!
Embedding of `src/raw.go`: `Raw[T]` wraps the store directly.
`Get` uses the two-value type assertion `r.pool.Get().(T)`: on an empty
store or a non-`T` head it yields the zero value of `T` (the parameter
`zero`) and `ok = false`; it is total — the two-value form never panics.
-/

/-- `Raw[T].Get` of `src/raw.go` (lines 13–17). -/
def Get {T A : Type} (zero : T) (proj : A → Option T) (store : List A) :
    (T × Bool) × List A :=
  let fetched := storeGet store
  match fetched.1.bind proj with
  | some object => ((object, true), fetched.2)
  | none => ((zero, false), fetched.2)

/-- `Raw[T].Put` of `src/raw.go` (lines 19–22). -/
def Put {T A : Type} (inj : T → A) (object : T) (store : List A) : List A :=
  store ++ [inj object]

end raw

/-!
Concrete model of Go's dynamic types, used to settle the exact-match
semantics of the type assertion `any(object).(Resetter[S])`.  State types
are identified by a `Nat` code; state values are `Nat`.  A value's dynamic
type either implements `Reset` for exactly one state-type code
(`resetTy = some ty`) or has no `Reset` method (`resetTy = none`); distinct
codes are distinct types, however related or convertible.  A `Reset`
invocation is observable in `resetLog`.
-/

/-- A pooled value in the dynamic-type model. -/
structure DynObj where
  resetTy : Option Nat
  resetLog : List Nat
deriving DecidableEq

/-- Go's type assertion `any(v).(Resetter[S])` for declared state-type code
`sTy`: succeeds exactly when the dynamic type's `Reset` argument type is
exactly `sTy`. -/
def dynIsResetter (sTy : Nat) (v : DynObj) : Bool :=
  v.resetTy == some sTy

/-- The `Reset(state)` method of the dynamic-type model: records the call. -/
def dynReset (v : DynObj) (state : Nat) : DynObj :=
  { v with resetLog := v.resetLog ++ [state] }

/-! ## Helper lemmas about traces -/

theorem cbOut_append {S A : Type} (l1 l2 : List (Ev S A)) :
    cbOut (l1 ++ l2) = cbOut l1 ++ cbOut l2 := by
  simp [cbOut]

theorem cbOut_map_cb {S A : Type} (ok : Bool) (l : List Nat) :
    cbOut (S := S) (A := A) (l.map fun id => Ev.cb id ok)
      = l.map fun id => (id, ok) := by
  induction l with
  | nil => rfl
  | cons x xs ih => simp only [List.map_cons, cbOut, List.filterMap_cons] at ih ⊢; rw [ih]

theorem cbOut_cons_attempt {S A : Type} (s : S) (b : Bool)
    (l : List (Ev S A)) : cbOut (Ev.attempt s b :: l) = cbOut l := rfl

theorem cbOut_cons_resetCall {S A : Type} (s : S) (l : List (Ev S A)) :
    cbOut (Ev.resetCall s :: l) = cbOut l := rfl

theorem attemptStates_append {S A : Type} (l1 l2 : List (Ev S A)) :
    attemptStates (l1 ++ l2) = attemptStates l1 ++ attemptStates l2 := by
  simp [attemptStates]

theorem attemptStates_map_cb {S A : Type} (ok : Bool) (l : List Nat) :
    attemptStates (S := S) (A := A) (l.map fun id => Ev.cb id ok) = [] := by
  induction l with
  | nil => rfl
  | cons x xs ih =>
    simp only [List.map_cons, attemptStates, List.filterMap_cons] at ih ⊢
    exact ih

theorem resetStates_append {S A : Type} (l1 l2 : List (Ev S A)) :
    resetStates (l1 ++ l2) = resetStates l1 ++ resetStates l2 := by
  simp [resetStates]

theorem ctorCount_append {S A : Type} (l1 l2 : List (Ev S A)) :
    ctorCount (l1 ++ l2) = ctorCount l1 + ctorCount l2 := by
  simp [ctorCount, List.countP_append]

theorem cbCount_append {S A : Type} (g : Nat) (l1 l2 : List (Ev S A)) :
    cbCount g (l1 ++ l2) = cbCount g l1 + cbCount g l2 := by
  simp [cbCount, List.countP_append]

theorem cbCount_map_cb {S A : Type} (g : Nat) (ok : Bool) (l : List Nat) :
    cbCount (S := S) (A := A) g (l.map fun id => Ev.cb id ok)
      = l.countP fun id => id == g := by
  induction l with
  | nil => rfl
  | cons x xs ih => simp [cbCount, List.countP_cons] at ih ⊢; omega

/-- The updated object of one default-dispatcher invocation when the
capability check succeeded. -/
theorem bd_fst_pos {S T A : Type} {isR : T → Bool} (reset : T → S → T)
    (cbs : List Nat) {o : T} (s : S) (h : isR o = true) :
    (monadicpool.buildDefaultResetter (A := A) isR reset cbs o s).1
      = reset o s := by
  simp [monadicpool.buildDefaultResetter, h]

/-- The updated object of one default-dispatcher invocation when the
capability check failed: the object is untouched. -/
theorem bd_fst_neg {S T A : Type} {isR : T → Bool} (reset : T → S → T)
    (cbs : List Nat) {o : T} (s : S) (h : isR o = false) :
    (monadicpool.buildDefaultResetter (A := A) isR reset cbs o s).1 = o := by
  simp [monadicpool.buildDefaultResetter, h]

/-- The trace of one default-dispatcher invocation on a matching value: one
`attempt`, the `resetCall`, then one `cb` per registered callback in
order. -/
theorem bd_trace_pos {S T A : Type} {isR : T → Bool} (reset : T → S → T)
    (cbs : List Nat) {o : T} (s : S) (h : isR o = true) :
    (monadicpool.buildDefaultResetter (A := A) isR reset cbs o s).2
      = Ev.attempt s true :: Ev.resetCall s ::
          (cbs.map fun id => Ev.cb id true) := by
  simp [monadicpool.buildDefaultResetter, h]

/-- The trace of one default-dispatcher invocation on a non-matching value:
one `attempt`, no `resetCall`, then one `cb` per registered callback. -/
theorem bd_trace_neg {S T A : Type} {isR : T → Bool} (reset : T → S → T)
    (cbs : List Nat) {o : T} (s : S) (h : isR o = false) :
    (monadicpool.buildDefaultResetter (A := A) isR reset cbs o s).2
      = Ev.attempt s false :: (cbs.map fun id => Ev.cb id false) := by
  simp [monadicpool.buildDefaultResetter, h]

theorem attemptStates_cons_attempt {S A : Type} (s : S) (b : Bool)
    (l : List (Ev S A)) :
    attemptStates (Ev.attempt s b :: l) = s :: attemptStates l := rfl

theorem attemptStates_cons_resetCall {S A : Type} (s : S)
    (l : List (Ev S A)) :
    attemptStates (Ev.resetCall s :: l) = attemptStates l := rfl

theorem attemptStates_bd {S T A : Type} (isR : T → Bool) (reset : T → S → T)
    (cbs : List Nat) (o : T) (s : S) :
    attemptStates (monadicpool.buildDefaultResetter (A := A) isR reset cbs o s).2
      = [s] := by
  cases h : isR o
  · rw [bd_trace_neg reset cbs s h, attemptStates_cons_attempt,
      attemptStates_map_cb]
  · rw [bd_trace_pos reset cbs s h, attemptStates_cons_attempt,
      attemptStates_cons_resetCall, attemptStates_map_cb]

theorem cbOut_bd {S T A : Type} (isR : T → Bool) (reset : T → S → T)
    (cbs : List Nat) (o : T) (s : S) :
    cbOut (monadicpool.buildDefaultResetter (A := A) isR reset cbs o s).2
      = cbs.map fun id => (id, isR o) := by
  cases h : isR o
  · rw [bd_trace_neg reset cbs s h, cbOut_cons_attempt, cbOut_map_cb]
  · rw [bd_trace_pos reset cbs s h, cbOut_cons_attempt, cbOut_cons_resetCall,
      cbOut_map_cb]

theorem cbCount_cons_attempt {S A : Type} (g : Nat) (s : S) (b : Bool)
    (l : List (Ev S A)) : cbCount g (Ev.attempt s b :: l) = cbCount g l := by
  simp [cbCount, List.countP_cons]

theorem cbCount_cons_resetCall {S A : Type} (g : Nat) (s : S)
    (l : List (Ev S A)) : cbCount g (Ev.resetCall s :: l) = cbCount g l := by
  simp [cbCount, List.countP_cons]

theorem cbCount_bd {S T A : Type} (isR : T → Bool) (reset : T → S → T)
    (cbs : List Nat) (o : T) (s : S) (g : Nat) :
    cbCount g (monadicpool.buildDefaultResetter (A := A) isR reset cbs o s).2
      = cbs.countP fun id => id == g := by
  cases h : isR o
  · rw [bd_trace_neg reset cbs s h, cbCount_cons_attempt, cbCount_map_cb]
  · rw [bd_trace_pos reset cbs s h, cbCount_cons_attempt,
      cbCount_cons_resetCall, cbCount_map_cb]

theorem attemptStates_cons_ctorCall {S A : Type} (l : List (Ev S A)) :
    attemptStates (Ev.ctorCall :: l) = attemptStates l := rfl

theorem attemptStates_cons_storePut {S A : Type} (a : A)
    (l : List (Ev S A)) :
    attemptStates (Ev.storePut a :: l) = attemptStates l := rfl

theorem cbOut_cons_ctorCall {S A : Type} (l : List (Ev S A)) :
    cbOut (Ev.ctorCall :: l) = cbOut l := rfl

theorem cbOut_cons_storePut {S A : Type} (a : A) (l : List (Ev S A)) :
    cbOut (Ev.storePut a :: l) = cbOut l := rfl

theorem cbCount_cons_ctorCall {S A : Type} (g : Nat) (l : List (Ev S A)) :
    cbCount g (Ev.ctorCall :: l) = cbCount g l := by
  simp [cbCount, List.countP_cons]

theorem cbCount_cons_storePut {S A : Type} (g : Nat) (a : A)
    (l : List (Ev S A)) :
    cbCount g (Ev.storePut a :: l) = cbCount g l := by
  simp [cbCount, List.countP_cons]

theorem resetStates_cons_resetCall {S A : Type} (s : S) (l : List (Ev S A)) :
    resetStates (Ev.resetCall s :: l) = s :: resetStates l := rfl

theorem resetStates_cons_ctorCall {S A : Type} (l : List (Ev S A)) :
    resetStates (Ev.ctorCall :: l) = resetStates l := rfl

theorem resetStates_cons_storePut {S A : Type} (a : A) (l : List (Ev S A)) :
    resetStates (Ev.storePut a :: l) = resetStates l := rfl

/-! ## Helper lemmas about the default monadic pool -/

/-- `Put` on the default monadic pool, unfolded: the put-time dispatcher is
applied once at the zero state, the result is handed to the store, and the
`storePut` event closes the trace. -/
theorem new_put_eq {S T A E : Type} (ctor : Unit → Except E T) (sZero : S)
    (isR : T → Bool) (reset : T → S → T) (gs ps : List Nat) (inj : T → A)
    (proj : A → Option T) (object : T) (store : List A) :
    (monadicpool.New ctor sZero isR reset gs ps inj proj).Put object store
      = (store ++
          [inj (monadicpool.buildDefaultResetter (A := A) isR reset ps
            object sZero).1],
        (monadicpool.buildDefaultResetter (A := A) isR reset ps
            object sZero).2 ++
          [Ev.storePut (inj (monadicpool.buildDefaultResetter (A := A) isR
            reset ps object sZero).1)]) := rfl

/-- Any successful `Get` on the default monadic pool records exactly one
reset-dispatch attempt, with the supplied state. -/
theorem new_get_attemptStates {S T A E : Type} (ctor : Unit → Except E T)
    (sZero : S) (isR : T → Bool) (reset : T → S → T) (gs ps : List Nat)
    (inj : T → A) (proj : A → Option T) (state : S) (store : List A)
    (res : T × List A × List (Ev S A))
    (h : (monadicpool.New ctor sZero isR reset gs ps inj proj).Get state
          store = .ok res) :
    attemptStates res.2.2 = [state] := by
  obtain ⟨o1, st1, tr⟩ := res
  cases hb : (storeGet store).1.bind proj with
  | some o =>
    simp only [monadicpool.New, monadicpool.resettableMonadicPool.Get,
      monadicpool.newWithResetters, xpool.simplePool.Get,
      xpool.NewWithResetter, hb, List.nil_append, Except.ok.injEq,
      Prod.mk.injEq] at h
    obtain ⟨-, -, h3⟩ := h
    rw [← h3, attemptStates_bd]
  | none =>
    cases hc : ctor () with
    | ok t =>
      simp only [monadicpool.New, monadicpool.resettableMonadicPool.Get,
        monadicpool.newWithResetters, xpool.simplePool.Get,
        xpool.NewWithResetter, hb, hc, List.singleton_append,
        Except.ok.injEq, Prod.mk.injEq] at h
      obtain ⟨-, -, h3⟩ := h
      rw [← h3, attemptStates_cons_ctorCall, attemptStates_bd]
    | error e =>
      simp [monadicpool.New, monadicpool.resettableMonadicPool.Get,
        monadicpool.newWithResetters, xpool.simplePool.Get,
        xpool.NewWithResetter, hb, hc] at h

theorem cbCount_nil {S A : Type} (x : Nat) :
    cbCount x ([] : List (Ev S A)) = 0 := rfl

theorem cbCount_take_le {S A : Type} (x n : Nat) (l : List (Ev S A)) :
    cbCount x (l.take n) ≤ cbCount x l :=
  (List.take_sublist n l).countP_le _

/-- Any successful `Get` on the default monadic pool invokes each registered
get-side callback exactly as many times as it was registered: the trace's
callback count at any id is the count of that id in the registration
list. -/
theorem new_get_ok_cbCount {S T A E : Type} (ctor0 : Unit → T) (sZero : S)
    (isR : T → Bool) (reset : T → S → T) (gs ps : List Nat) (inj : T → A)
    (proj : A → Option T) (state : S) (store : List A) :
    ∃ o st1 evG,
      (monadicpool.New (E := E) (fun _ => .ok (ctor0 ())) sZero isR reset
          gs ps inj proj).Get state store = .ok (o, st1, evG) ∧
      ∀ x, cbCount x evG = gs.countP fun id => id == x := by
  cases hb : (storeGet store).1.bind proj with
  | some o =>
    refine ⟨(monadicpool.buildDefaultResetter (A := A) isR reset gs o
        state).1,
      (storeGet store).2,
      (monadicpool.buildDefaultResetter (A := A) isR reset gs o state).2,
      ?_, ?_⟩
    · simp only [monadicpool.New, monadicpool.newWithResetters,
        monadicpool.resettableMonadicPool.Get, xpool.NewWithResetter,
        xpool.simplePool.Get, hb, List.nil_append]
    · intro x
      exact cbCount_bd isR reset gs o state x
  | none =>
    refine ⟨(monadicpool.buildDefaultResetter (A := A) isR reset gs
        (ctor0 ()) state).1,
      (storeGet store).2,
      Ev.ctorCall ::
        (monadicpool.buildDefaultResetter (A := A) isR reset gs (ctor0 ())
          state).2,
      ?_, ?_⟩
    · simp only [monadicpool.New, monadicpool.newWithResetters,
        monadicpool.resettableMonadicPool.Get, xpool.NewWithResetter,
        xpool.simplePool.Get, hb, List.singleton_append]
    · intro x
      rw [cbCount_cons_ctorCall]
      exact cbCount_bd isR reset gs (ctor0 ()) state x

/-- Any successful `Get` on the default monadic pool fires the registered
get-side callbacks in registration order, each exactly once, all with the
same boolean outcome. -/
theorem new_get_ok_cbOut {S T A E : Type} (ctor : Unit → Except E T)
    (sZero : S) (isR : T → Bool) (reset : T → S → T) (gs ps : List Nat)
    (inj : T → A) (proj : A → Option T) (state : S) (store : List A)
    (res : T × List A × List (Ev S A))
    (h : (monadicpool.New ctor sZero isR reset gs ps inj proj).Get state
          store = .ok res) :
    ∃ b, cbOut res.2.2 = gs.map fun id => (id, b) := by
  obtain ⟨o1, st1, tr⟩ := res
  cases hb : (storeGet store).1.bind proj with
  | some o =>
    simp only [monadicpool.New, monadicpool.resettableMonadicPool.Get,
      monadicpool.newWithResetters, xpool.simplePool.Get,
      xpool.NewWithResetter, hb, List.nil_append, Except.ok.injEq,
      Prod.mk.injEq] at h
    obtain ⟨-, -, h3⟩ := h
    exact ⟨isR o, by rw [← h3, cbOut_bd]⟩
  | none =>
    cases hc : ctor () with
    | ok t =>
      simp only [monadicpool.New, monadicpool.resettableMonadicPool.Get,
        monadicpool.newWithResetters, xpool.simplePool.Get,
        xpool.NewWithResetter, hb, hc, List.singleton_append,
        Except.ok.injEq, Prod.mk.injEq] at h
      obtain ⟨-, -, h3⟩ := h
      exact ⟨isR t, by rw [← h3, cbOut_cons_ctorCall, cbOut_bd]⟩
    | error e =>
      simp [monadicpool.New, monadicpool.resettableMonadicPool.Get,
        monadicpool.newWithResetters, xpool.simplePool.Get,
        xpool.NewWithResetter, hb, hc] at h

/-- `Put` on the default monadic pool fires the registered put-side
callbacks in registration order, each exactly once, with the capability
outcome of the released object. -/
theorem new_put_cbOut {S T A E : Type} (ctor : Unit → Except E T)
    (sZero : S) (isR : T → Bool) (reset : T → S → T) (gs ps : List Nat)
    (inj : T → A) (proj : A → Option T) (object : T) (store : List A) :
    cbOut ((monadicpool.New ctor sZero isR reset gs ps inj proj).Put object
        store).2 = ps.map fun id => (id, isR object) := by
  rw [new_put_eq, cbOut_append, cbOut_bd]
  simp [cbOut]

theorem new_put_cbCount {S T A E : Type} (ctor : Unit → Except E T)
    (sZero : S) (isR : T → Bool) (reset : T → S → T) (gs ps : List Nat)
    (inj : T → A) (proj : A → Option T) (object : T) (store : List A)
    (x : Nat) :
    cbCount x ((monadicpool.New ctor sZero isR reset gs ps inj proj).Put
        object store).2 = ps.countP fun id => id == x := by
  rw [new_put_eq, cbCount_append, cbCount_bd]
  simp [cbCount, List.countP_cons]

/-- Balance preservation: prefixing a trace that satisfies the
release-never-ahead-of-acquire invariant with one acquire block (one `g`
callback, no `q`) followed by one release block (one `q` callback, no `g`)
preserves the invariant. -/
theorem balance_cycle {S A : Type} (g q : Nat) (evG evP t : List (Ev S A))
    (hg1 : cbCount g evG = 1) (hq0 : cbCount q evG = 0)
    (_hg0 : cbCount g evP = 0) (hq1 : cbCount q evP = 1)
    (ht : ∀ n, cbCount q (t.take n) ≤ cbCount g (t.take n)) (n : Nat) :
    cbCount q ((evG ++ (evP ++ t)).take n)
      ≤ cbCount g ((evG ++ (evP ++ t)).take n) := by
  rw [List.take_append_eq_append_take, List.take_append_eq_append_take,
    cbCount_append, cbCount_append, cbCount_append, cbCount_append]
  by_cases h1 : n ≤ evG.length
  · have hm : n - evG.length = 0 := Nat.sub_eq_zero_of_le h1
    have hq : cbCount q (evG.take n) ≤ cbCount q evG := cbCount_take_le q n evG
    simp only [hm, Nat.zero_sub, List.take_zero, cbCount_nil]
    omega
  · have hlen : evG.length ≤ n := by omega
    rw [List.take_of_length_le hlen]
    have hqB : cbCount q (evP.take (n - evG.length)) ≤ cbCount q evP :=
      cbCount_take_le q _ evP
    have hT := ht (n - evG.length - evP.length)
    omega

/-- N acquire/release cycles on the default monadic pool with one get-side
callback `g` and one put-side callback `q` succeed and record exactly N
`g` observations and N `q` observations, with no prefix of the trace
holding more `q` than `g` observations (each release observation is
preceded by its cycle's acquire observation). -/
theorem cycles_cb_spec {S T A E : Type} (ctor0 : Unit → T) (sZero : S)
    (isR : T → Bool) (reset : T → S → T) (g q : Nat) (hne : g ≠ q)
    (inj : T → A) (proj : A → Option T) (states : List S) :
    ∀ store : List A,
      ∃ st' tr,
        monadicpool.cycles
          (monadicpool.New (E := E) (fun _ => .ok (ctor0 ())) sZero isR
            reset [g] [q] inj proj) states store = .ok (st', tr) ∧
        cbCount g tr = states.length ∧ cbCount q tr = states.length ∧
        ∀ n, cbCount q (tr.take n) ≤ cbCount g (tr.take n) := by
  induction states with
  | nil =>
    intro store
    exact ⟨store, [], rfl, rfl, rfl, fun n => by
      rw [List.take_nil, cbCount_nil, cbCount_nil]⟩
  | cons s rest ih =>
    intro store
    obtain ⟨o, st1, evG, hg, hcbG⟩ := new_get_ok_cbCount (E := E) ctor0
      sZero isR reset [g] [q] inj proj s store
    obtain ⟨st3, tr, hcyc, hG, hQ, hbal⟩ := ih
      ((monadicpool.New (E := E) (fun _ => .ok (ctor0 ())) sZero isR reset
        [g] [q] inj proj).Put o st1).1
    have e1 : cbCount g evG = 1 := by
      rw [hcbG g]; simp
    have e2 : cbCount q evG = 0 := by
      rw [hcbG q]; simp [List.countP_cons, hne]
    have e3 : cbCount g ((monadicpool.New (E := E)
        (fun _ => .ok (ctor0 ())) sZero isR reset [g] [q] inj proj).Put o
          st1).2 = 0 := by
      rw [new_put_cbCount]
      simp [List.countP_cons, (Ne.symm hne)]
    have e4 : cbCount q ((monadicpool.New (E := E)
        (fun _ => .ok (ctor0 ())) sZero isR reset [g] [q] inj proj).Put o
          st1).2 = 1 := by
      rw [new_put_cbCount]; simp
    refine ⟨st3,
      evG ++
        (((monadicpool.New (E := E) (fun _ => .ok (ctor0 ())) sZero isR
          reset [g] [q] inj proj).Put o st1).2 ++ tr), ?_, ?_, ?_, ?_⟩
    · simp only [monadicpool.cycles, hg, hcyc]
      rw [List.append_assoc]
    · rw [cbCount_append, cbCount_append, e1, e3, hG]
      simp [List.length_cons, Nat.add_comm]
    · rw [cbCount_append, cbCount_append, e2, e4, hQ]
      simp [List.length_cons, Nat.add_comm]
    · exact balance_cycle g q evG _ tr e1 e2 e3 e4 hbal

/-! ## Claims -/

/-- C1: the default capability-detecting resetter of the monadic pool treats
a value as resettable exactly when its dynamic type implements `Reset` with
argument type exactly the declared state type `sTy`: on a match the value
has `Reset(state)` invoked and every observer callback receives `true`; on
any other value — no `Reset` method, or a `Reset` whose argument type is any
code other than `sTy` — the value is left untouched and every callback
receives `false`. -/
theorem C1_default_resetter_exact_match (sTy : Nat) (v : DynObj)
    (state : Nat) (cbs : List Nat) :
    (dynIsResetter sTy v = true ↔ v.resetTy = some sTy) ∧
    (v.resetTy = some sTy →
      (monadicpool.buildDefaultResetter (A := Unit) (dynIsResetter sTy)
          dynReset cbs v state).1 = dynReset v state ∧
      cbOut (monadicpool.buildDefaultResetter (A := Unit) (dynIsResetter sTy)
          dynReset cbs v state).2 = cbs.map fun id => (id, true)) ∧
    (v.resetTy ≠ some sTy →
      (monadicpool.buildDefaultResetter (A := Unit) (dynIsResetter sTy)
          dynReset cbs v state).1 = v ∧
      cbOut (monadicpool.buildDefaultResetter (A := Unit) (dynIsResetter sTy)
          dynReset cbs v state).2 = cbs.map fun id => (id, false)) := by
  refine ⟨by simp [dynIsResetter], fun h => ⟨?_, ?_⟩, fun h => ⟨?_, ?_⟩⟩
  · simp [monadicpool.buildDefaultResetter, dynIsResetter, h]
  · rw [cbOut_bd]
    simp [dynIsResetter, h]
  · simp [monadicpool.buildDefaultResetter, dynIsResetter, h]
  · rw [cbOut_bd]
    simp [dynIsResetter, h]

/-- Witness for C1 at concrete inputs: declared state type code 2, one
callback with id 7; a value whose `Reset` takes type 2 matches, a value
whose `Reset` takes the different type 3 does not. -/
theorem C1_default_resetter_exact_match_witness :
    ((monadicpool.buildDefaultResetter (A := Unit) (dynIsResetter 2)
        dynReset [7] ⟨some 2, []⟩ 5).1 = dynReset ⟨some 2, []⟩ 5 ∧
      cbOut (monadicpool.buildDefaultResetter (A := Unit) (dynIsResetter 2)
        dynReset [7] ⟨some 2, []⟩ 5).2 = [(7, true)]) ∧
    ((monadicpool.buildDefaultResetter (A := Unit) (dynIsResetter 2)
        dynReset [7] ⟨some 3, []⟩ 5).1 = (⟨some 3, []⟩ : DynObj) ∧
      cbOut (monadicpool.buildDefaultResetter (A := Unit) (dynIsResetter 2)
        dynReset [7] ⟨some 3, []⟩ 5).2 = [(7, false)]) := by
  refine ⟨?_, ?_⟩
  · exact (C1_default_resetter_exact_match 2 ⟨some 2, []⟩ 5 [7]).2.1 rfl
  · exact (C1_default_resetter_exact_match 2 ⟨some 3, []⟩ 5 [7]).2.2 (by decide)

/-- C2: `Get(state)` on the monadic pool first obtains a value from the
wrapped pool's `Get` — the stored head when it type-asserts to `T`, a fresh
`ctor ()` on a store miss — then applies the configured acquisition-time
resetter exactly once to that value with the given state, and returns the
resulting value.  For the default-dispatcher pool (`monadicpool.New`) the
acquisition-time reset attempt is recorded exactly once, with the supplied
state. -/
theorem C2_monadic_get_resets_once {S T A E : Type}
    (ctor : Unit → Except E T) (rG : T → S → T × List (Ev S A))
    (rP : T → T × List (Ev S A)) (inj : T → A) (proj : A → Option T)
    (state : S) (store : List A) :
    (∀ a rest o, store = a :: rest → proj a = some o →
      (monadicpool.newWithResetters ctor rG rP inj proj).Get state store
        = .ok ((rG o state).1, rest, (rG o state).2)) ∧
    (∀ t, (storeGet store).1.bind proj = none → ctor () = .ok t →
      (monadicpool.newWithResetters ctor rG rP inj proj).Get state store
        = .ok ((rG t state).1, (storeGet store).2,
            Ev.ctorCall :: (rG t state).2)) ∧
    (∀ (sZero : S) (isR : T → Bool) (reset : T → S → T) (gs ps : List Nat)
        (res : T × List A × List (Ev S A)),
      (monadicpool.New ctor sZero isR reset gs ps inj proj).Get state store
        = .ok res →
      attemptStates res.2.2 = [state]) := by
  refine ⟨?_, ?_, ?_⟩
  · intro a rest o hst hp
    subst hst
    simp [monadicpool.resettableMonadicPool.Get, monadicpool.newWithResetters,
      xpool.simplePool.Get, xpool.NewWithResetter, storeGet, hp]
  · intro t hb hc
    simp [monadicpool.resettableMonadicPool.Get, monadicpool.newWithResetters,
      xpool.simplePool.Get, xpool.NewWithResetter, hb, hc]
  · intro sZero isR reset gs ps res h
    exact new_get_attemptStates ctor sZero isR reset gs ps inj proj state
      store res h

/-- Witness for C2 at concrete inputs: `S = Nat`, `T = A = DynObj`,
a store hit, a store miss, and the default pool's single attempt. -/
theorem C2_monadic_get_resets_once_witness :
    ((monadicpool.newWithResetters (E := Unit)
        (fun _ => .ok (⟨some 0, []⟩ : DynObj))
        (fun o s => (dynReset o s, [Ev.resetCall s]))
        (fun o => (o, [])) id some).Get 5 [⟨some 0, [3]⟩]
      = .ok (dynReset ⟨some 0, [3]⟩ 5, [], [Ev.resetCall 5])) ∧
    (attemptStates
        ([Ev.ctorCall, Ev.attempt 5 true, Ev.resetCall 5, Ev.cb 4 true] :
          List (Ev Nat DynObj)) = [5]) := by
  refine ⟨?_, ?_⟩
  · exact (C2_monadic_get_resets_once (E := Unit)
      (fun _ => .ok (⟨some 0, []⟩ : DynObj))
      (fun o s => (dynReset o s, [Ev.resetCall s])) (fun o => (o, []))
      id some 5 [⟨some 0, [3]⟩]).1 ⟨some 0, [3]⟩ [] ⟨some 0, [3]⟩ rfl rfl
  · exact (C2_monadic_get_resets_once (E := Unit)
      (fun _ => .ok (⟨some 0, []⟩ : DynObj))
      (monadicpool.buildDefaultResetter (dynIsResetter 0) dynReset [4])
      (fun object =>
        monadicpool.buildDefaultResetter (dynIsResetter 0) dynReset [9]
          object 0) id some 5 []).2.2 0 (dynIsResetter 0) dynReset [4] [9]
      (⟨some 0, [5]⟩, [],
        [Ev.ctorCall, Ev.attempt 5 true, Ev.resetCall 5, Ev.cb 4 true]) rfl

/-- C3: `Put(object)` on the default monadic pool applies the configured
release-time dispatcher exactly once with the zero value of `S` as its
state argument, and this happens before the object is handed to the store
(the trace is the dispatcher's events followed by the `storePut` of the
post-reset object); combined with `Get`, one acquire/release cycle performs
exactly one acquisition-time reset attempt with the real state and exactly
one release-time reset attempt with the zero value, in that order. -/
theorem C3_monadic_put_zero_state_before_store {S T A E : Type}
    (ctor : Unit → Except E T) (sZero : S) (isR : T → Bool)
    (reset : T → S → T) (gs ps : List Nat) (inj : T → A)
    (proj : A → Option T) (object : T) (store : List A) :
    ((monadicpool.New ctor sZero isR reset gs ps inj proj).Put object store
      = (store ++
          [inj (monadicpool.buildDefaultResetter (A := A) isR reset ps
            object sZero).1],
        (monadicpool.buildDefaultResetter (A := A) isR reset ps
            object sZero).2 ++
          [Ev.storePut (inj (monadicpool.buildDefaultResetter (A := A) isR
            reset ps object sZero).1)])) ∧
    (attemptStates
        ((monadicpool.New ctor sZero isR reset gs ps inj proj).Put object
          store).2 = [sZero]) ∧
    (∀ (state : S) (o : T) (st1 : List A) (evG : List (Ev S A)),
      (monadicpool.New ctor sZero isR reset gs ps inj proj).Get state store
        = .ok (o, st1, evG) →
      attemptStates
        (evG ++
          ((monadicpool.New ctor sZero isR reset gs ps inj proj).Put o
            st1).2) = [state, sZero]) := by
  refine ⟨new_put_eq ctor sZero isR reset gs ps inj proj object store,
    ?_, ?_⟩
  · rw [new_put_eq, attemptStates_append, attemptStates_bd,
      attemptStates_cons_storePut]
    rfl
  · intro state o st1 evG h
    rw [attemptStates_append,
      new_get_attemptStates ctor sZero isR reset gs ps inj proj state store
        (o, st1, evG) h,
      new_put_eq, attemptStates_append, attemptStates_bd,
      attemptStates_cons_storePut]
    rfl

/-- Witness for C3 at concrete inputs: a one-element pool over `DynObj`
with declared state-type code 0, zero state 0, real state 5. -/
theorem C3_monadic_put_zero_state_before_store_witness :
    attemptStates
        ([Ev.ctorCall, Ev.attempt 5 true, Ev.resetCall 5, Ev.cb 4 true] ++
          ((monadicpool.New (E := Unit)
            (fun _ => .ok (⟨some 0, []⟩ : DynObj)) 0 (dynIsResetter 0)
            dynReset [4] [9] id some).Put ⟨some 0, [5]⟩ []).2)
      = [5, 0] := by
  exact (C3_monadic_put_zero_state_before_store (E := Unit)
    (fun _ => .ok (⟨some 0, []⟩ : DynObj)) 0 (dynIsResetter 0) dynReset
    [4] [9] id some ⟨some 0, [5]⟩ []).2.2 5 ⟨some 0, [5]⟩ []
    [Ev.ctorCall, Ev.attempt 5 true, Ev.resetCall 5, Ev.cb 4 true] rfl

/-- C4 counterexample: constructing a pool with a nil release-hook raises no
configuration error.  The legacy `resettablePool` constructor returns a pool
(its `resetter` field is simply `none`) and the failure — a nil-function-call
panic — surfaces only at the first `Put`; the current `simplePool` variant
does not fail at all: its `Put` silently skips the reset and stores the
object.  This refutes the claim that construction fails fast. -/
theorem C4_nil_hook_not_rejected_at_construction :
    (xpoolLegacy.NewWithResetter (fun _ => (0 : Nat)) none id some).resetter
        = none ∧
    (xpoolLegacy.NewWithResetter (fun _ => (0 : Nat)) none id some).Put 5 []
        = .error .nilFunctionCall ∧
    (xpool.NewWithResetter (S := Unit) (E := Unit) (fun _ => .ok (0 : Nat))
        none id some).Put 5 [] = ([5], [Ev.storePut 5]) :=
  ⟨rfl, rfl, rfl⟩

/-- C4 (amended): a nil release-hook where the API takes one is not rejected
at construction: `NewWithResetter` always returns a pool.  In the current
`simplePool` variant a nil resetter makes `Put` silently skip the reset and
store the object unchanged; in the legacy `resettablePool` variant every
`Put` on such a pool fails with a nil-function-call panic — the failure is
deferred to first use, never signalled at construction. -/
theorem C4_nil_hook_deferred_failure {S T A E R B : Type}
    (ctor : Unit → Except E T) (inj : T → A) (proj : A → Option T)
    (object : T) (store : List A) (ctor2 : Unit → R) (inj2 : R → B)
    (proj2 : B → Option R) (obj2 : R) (store2 : List B) :
    ((xpool.NewWithResetter (S := S) ctor none inj proj).Put object store
      = (store ++ [inj object], [Ev.storePut (inj object)])) ∧
    ((xpoolLegacy.NewWithResetter ctor2 none inj2 proj2).resetter = none) ∧
    ((xpoolLegacy.NewWithResetter ctor2 none inj2 proj2).Put obj2 store2
      = .error .nilFunctionCall) :=
  ⟨rfl, rfl, rfl⟩

/-- C5: `Get` on the typed pool pops the store head; if the store is empty,
or the head fails the type assertion to `T` (treated identically), the
constructor is invoked — exactly once, as the single `ctorCall` in the
trace — and its value returned; a store hit invokes no constructor; `Get`
itself never fails, and a constructor panic propagates to the caller
uncaught. -/
theorem C5_typed_get_ctor_on_miss {S T A E : Type}
    (p : xpool.simplePool S T A E) (store : List A) :
    (∀ t, store = [] → p.ctor () = .ok t →
      p.Get store = .ok (t, [], [Ev.ctorCall])) ∧
    (∀ a rest t, store = a :: rest → p.proj a = none → p.ctor () = .ok t →
      p.Get store = .ok (t, rest, [Ev.ctorCall])) ∧
    (∀ a rest o, store = a :: rest → p.proj a = some o →
      p.Get store = .ok (o, rest, [])) ∧
    (∀ e, (storeGet store).1.bind p.proj = none → p.ctor () = .error e →
      p.Get store = .error e) := by
  refine ⟨?_, ?_, ?_, ?_⟩
  · intro t hst hc
    subst hst
    simp [xpool.simplePool.Get, storeGet, hc]
  · intro a rest t hst hp hc
    subst hst
    simp [xpool.simplePool.Get, storeGet, hp, hc]
  · intro a rest o hst hp
    subst hst
    simp [xpool.simplePool.Get, storeGet, hp]
  · intro e hb hc
    simp [xpool.simplePool.Get, hb, hc]

/-- Witness for C5 at concrete inputs: `T = Nat`, `A = Nat ⊕ Bool`; an empty
store, a store whose head is a non-`T` value (`Sum.inr true`), a store hit,
and a panicking constructor. -/
theorem C5_typed_get_ctor_on_miss_witness :
    ((xpool.simplePool.mk (S := Unit) (T := Nat) (A := Nat ⊕ Bool)
        (E := String) (fun _ => .ok 7) none Sum.inl
        (fun a => a.getLeft?)).Get []
      = .ok (7, [], [Ev.ctorCall])) ∧
    ((xpool.simplePool.mk (S := Unit) (T := Nat) (A := Nat ⊕ Bool)
        (E := String) (fun _ => .ok 7) none Sum.inl
        (fun a => a.getLeft?)).Get [Sum.inr true]
      = .ok (7, [], [Ev.ctorCall])) ∧
    ((xpool.simplePool.mk (S := Unit) (T := Nat) (A := Nat ⊕ Bool)
        (E := String) (fun _ => .ok 7) none Sum.inl
        (fun a => a.getLeft?)).Get [Sum.inl 3, Sum.inr true]
      = .ok (3, [Sum.inr true], [])) ∧
    ((xpool.simplePool.mk (S := Unit) (T := Nat) (A := Nat ⊕ Bool)
        (fun _ => .error "boom") none Sum.inl
        (fun a => a.getLeft?)).Get [Sum.inr true]
      = .error "boom") := by
  refine ⟨?_, ?_, ?_, ?_⟩
  · exact (C5_typed_get_ctor_on_miss _ []).1 7 rfl rfl
  · exact (C5_typed_get_ctor_on_miss _ [Sum.inr true]).2.1 (Sum.inr true) []
      7 rfl rfl rfl
  · exact (C5_typed_get_ctor_on_miss _ [Sum.inl 3, Sum.inr true]).2.2.1
      (Sum.inl 3) [Sum.inr true] 3 rfl rfl
  · exact (C5_typed_get_ctor_on_miss _ [Sum.inr true]).2.2.2 "boom" rfl rfl

/-- C7: under `NewWithResetter(ctor, customResetter)` the single
caller-supplied function is the hook at both call sites: the acquisition-time
resetter is `customResetter` itself and the release-time hook is
extensionally `customResetter` applied at the zero value of `S`, so `Put`
runs `customResetter(object, zero)` before storing. -/
theorem C7_custom_resetter_single_function {S T A E : Type}
    (ctor : Unit → Except E T) (sZero : S)
    (custom : T → S → T × List (Ev S A)) (inj : T → A)
    (proj : A → Option T) :
    ((monadicpool.NewWithResetter ctor sZero custom inj proj).resetter
      = custom) ∧
    ((monadicpool.NewWithResetter ctor sZero custom inj proj).pool.resetter
      = some fun object => custom object sZero) ∧
    (∀ (object : T) (store : List A),
      (monadicpool.NewWithResetter ctor sZero custom inj proj).Put object
          store
        = (store ++ [inj (custom object sZero).1],
            (custom object sZero).2 ++
              [Ev.storePut (inj (custom object sZero).1)])) :=
  ⟨rfl, rfl, fun _ _ => rfl⟩

/-- C8: `Put` on a reset-dispatch pool with a configured release-hook
invokes the hook on the value first and then delegates — the value handed to
the underlying pool, and hence to the store, is the post-hook value, and the
new store is exactly the old one plus that value; likewise for the
`Resetter`-constrained `PoolResetter.Put`, which calls `Reset` and then
delegates. -/
theorem C8_release_hook_then_delegate {T A R B : Type} (ctor : Unit → T)
    (hook : T → T) (inj : T → A) (proj : A → Option T) (obj : T)
    (store : List A) (ctor2 : Unit → R) (reset2 : R → R) (inj2 : R → B)
    (proj2 : B → Option R) (r : R) (store2 : List B) :
    ((xpoolLegacy.NewWithResetter ctor (some hook) inj proj).Put obj store
      = .ok ((xpoolLegacy.New ctor inj proj).Put (hook obj) store)) ∧
    ((xpoolLegacy.New ctor inj proj).Put (hook obj) store
      = store ++ [inj (hook obj)]) ∧
    ((resetter.NewPool ctor2 reset2 inj2 proj2).Put r store2
      = (xpoolLegacy.New ctor2 inj2 proj2).Put (reset2 r) store2) ∧
    ((xpoolLegacy.New ctor2 inj2 proj2).Put (reset2 r) store2
      = store2 ++ [inj2 (reset2 r)]) :=
  ⟨rfl, rfl, rfl, rfl⟩

/-- C9: `Raw[T].Get` is total (the two-value type assertion never panics):
on an empty store, or when the fetched value is not a `T`, it returns the
zero value of `T` with `ok = false`; when the store yields a `T` it returns
that value with `ok = true`. -/
theorem C9_raw_get_zero_on_mismatch {T A : Type} (zero : T)
    (proj : A → Option T) (a : A) (rest : List A) :
    (raw.Get zero proj [] = ((zero, false), [])) ∧
    (proj a = none → raw.Get zero proj (a :: rest) = ((zero, false), rest)) ∧
    (∀ t, proj a = some t →
      raw.Get zero proj (a :: rest) = ((t, true), rest)) := by
  refine ⟨rfl, ?_, ?_⟩
  · intro hp
    simp [raw.Get, storeGet, hp]
  · intro t hp
    simp [raw.Get, storeGet, hp]

/-- Witness for C9 at concrete inputs: `T = Nat`, `A = Nat ⊕ Bool`, zero
value 0; an empty store, a non-`T` head, and a `T` head. -/
theorem C9_raw_get_zero_on_mismatch_witness :
    (raw.Get (T := Nat) (A := Nat ⊕ Bool) 0 Sum.getLeft? []
      = ((0, false), [])) ∧
    (raw.Get (T := Nat) (A := Nat ⊕ Bool) 0 Sum.getLeft?
        [Sum.inr true, Sum.inl 4] = ((0, false), [Sum.inl 4])) ∧
    (raw.Get (T := Nat) (A := Nat ⊕ Bool) 0 Sum.getLeft? [Sum.inl 9]
      = ((9, true), [])) := by
  refine ⟨(C9_raw_get_zero_on_mismatch (A := Nat ⊕ Bool) 0 Sum.getLeft?
      (Sum.inl 0) []).1,
    (C9_raw_get_zero_on_mismatch 0 Sum.getLeft? (Sum.inr true)
      [Sum.inl 4]).2.1 rfl,
    (C9_raw_get_zero_on_mismatch 0 Sum.getLeft? (Sum.inl 9) []).2.2 9 rfl⟩

/-- C10: on a pool built by the compile-time-constrained stateful
constructor, `Reset` is invoked unconditionally — once with the supplied
state on every `Get` and once with the zero value of `S` on every `Put`
(before the store handoff) — for every object, with no capability check, and
the traces contain no observer-callback events at all. -/
theorem C10_stateful_unconditional_reset {S T A : Type} (ctor : Unit → T)
    (sZero : S) (reset : T → S → T) (inj : T → A) (proj : A → Option T)
    (state : S) (object : T) (store : List A) :
    ((stateful.New ctor sZero reset inj proj).Get state store
      = (reset ((stateful.New ctor sZero reset inj proj).pool.Get store).1
            state,
          ((stateful.New ctor sZero reset inj proj).pool.Get store).2.1,
          ((stateful.New ctor sZero reset inj proj).pool.Get store).2.2 ++
            [Ev.resetCall state])) ∧
    (resetStates
        ((stateful.New ctor sZero reset inj proj).Get state store).2.2
      = [state]) ∧
    (cbOut ((stateful.New ctor sZero reset inj proj).Get state store).2.2
      = []) ∧
    ((stateful.New ctor sZero reset inj proj).Put object store
      = (store ++ [inj (reset object sZero)],
          [Ev.resetCall sZero,
            Ev.storePut (inj (reset object sZero))])) ∧
    (resetStates
        ((stateful.New ctor sZero reset inj proj).Put object store).2
      = [sZero]) ∧
    (cbOut ((stateful.New ctor sZero reset inj proj).Put object store).2
      = []) := by
  refine ⟨rfl, ?_, ?_, rfl, rfl, rfl⟩
  · cases hb : (storeGet store).1.bind proj with
    | some o =>
      simp [stateful.New, stateful.newWithResetters,
        stateful.resettableMonadicPool.Get, xpool2.simplePool.Get,
        xpool2.NewWithCustomResetter, hb, resetStates]
    | none =>
      simp [stateful.New, stateful.newWithResetters,
        stateful.resettableMonadicPool.Get, xpool2.simplePool.Get,
        xpool2.NewWithCustomResetter, hb, resetStates]
  · cases hb : (storeGet store).1.bind proj with
    | some o =>
      simp [stateful.New, stateful.newWithResetters,
        stateful.resettableMonadicPool.Get, xpool2.simplePool.Get,
        xpool2.NewWithCustomResetter, hb, cbOut]
    | none =>
      simp [stateful.New, stateful.newWithResetters,
        stateful.resettableMonadicPool.Get, xpool2.simplePool.Get,
        xpool2.NewWithCustomResetter, hb, cbOut]

/-- C6: on the default monadic pool, every single `Get` fires every
registered get-side callback exactly once, in registration order, all with
the boolean outcome of that call's reset attempt, and every single `Put`
does the same for the put-side callbacks with the released object's
capability outcome; consequently, over N acquire/release cycles with one
callback on each side, exactly N acquire observations and N release
observations are recorded, and in every prefix of the recorded trace the
release observations never outnumber the acquire observations (the acquire
observation precedes the release observation within each cycle). -/
theorem C6_observer_cardinality_order {S T A E : Type}
    (ctor : Unit → Except E T) (ctor0 : Unit → T) (sZero : S)
    (isR : T → Bool) (reset : T → S → T) (gs ps : List Nat) (inj : T → A)
    (proj : A → Option T) (state : S) (store : List A) (g q : Nat)
    (hne : g ≠ q) (states : List S) :
    (∀ res : T × List A × List (Ev S A),
      (monadicpool.New ctor sZero isR reset gs ps inj proj).Get state store
        = .ok res →
      ∃ b, cbOut res.2.2 = gs.map fun id => (id, b)) ∧
    (∀ (object : T) (store2 : List A),
      cbOut ((monadicpool.New ctor sZero isR reset gs ps inj proj).Put
          object store2).2 = ps.map fun id => (id, isR object)) ∧
    (∃ st' tr,
      monadicpool.cycles
        (monadicpool.New (E := E) (fun _ => .ok (ctor0 ())) sZero isR reset
          [g] [q] inj proj) states store = .ok (st', tr) ∧
      cbCount g tr = states.length ∧ cbCount q tr = states.length ∧
      ∀ n, cbCount q (tr.take n) ≤ cbCount g (tr.take n)) := by
  refine ⟨?_, ?_, ?_⟩
  · intro res h
    exact new_get_ok_cbOut ctor sZero isR reset gs ps inj proj state store
      res h
  · intro object store2
    exact new_put_cbOut ctor sZero isR reset gs ps inj proj object store2
  · exact cycles_cb_spec ctor0 sZero isR reset g q hne inj proj states store

/-- Witness for C6 at concrete inputs: pool over `DynObj` with declared
state-type code 0, get-side callback 4 (ids `[4]`), put-side callback 9; a
concrete `Get`, a concrete `Put`, and two cycles (`states = [5, 6]`) with
callbacks `g = 0`, `q = 1`. -/
theorem C6_observer_cardinality_order_witness :
    (∃ b, cbOut
        ([Ev.ctorCall, Ev.attempt 5 true, Ev.resetCall 5, Ev.cb 4 true] :
          List (Ev Nat DynObj)) = [(4, b)]) ∧
    (cbOut ((monadicpool.New (E := Unit)
        (fun _ => .ok (⟨some 0, []⟩ : DynObj)) 0 (dynIsResetter 0) dynReset
        [4] [9] id some).Put ⟨some 0, [5]⟩ []).2
      = [(9, dynIsResetter 0 ⟨some 0, [5]⟩)]) ∧
    (∃ st' tr,
      monadicpool.cycles
        (monadicpool.New (E := Unit)
          (fun _ => .ok ((fun _ => (⟨some 0, []⟩ : DynObj)) ())) 0
          (dynIsResetter 0) dynReset [0] [1] id some) [5, 6] []
        = .ok (st', tr) ∧
      cbCount 0 tr = 2 ∧ cbCount 1 tr = 2 ∧
      ∀ n, cbCount 1 (tr.take n) ≤ cbCount 0 (tr.take n)) := by
  refine ⟨?_, ?_, ?_⟩
  · exact (C6_observer_cardinality_order (E := Unit)
      (fun _ => .ok (⟨some 0, []⟩ : DynObj))
      (fun _ => (⟨some 0, []⟩ : DynObj)) 0 (dynIsResetter 0) dynReset [4]
      [9] id some 5 [] 0 1 (by decide) [5, 6]).1
      (⟨some 0, [5]⟩, [],
        [Ev.ctorCall, Ev.attempt 5 true, Ev.resetCall 5, Ev.cb 4 true]) rfl
  · exact (C6_observer_cardinality_order (E := Unit)
      (fun _ => .ok (⟨some 0, []⟩ : DynObj))
      (fun _ => (⟨some 0, []⟩ : DynObj)) 0 (dynIsResetter 0) dynReset [4]
      [9] id some 5 [] 0 1 (by decide) [5, 6]).2.1 ⟨some 0, [5]⟩ []
  · exact (C6_observer_cardinality_order (E := Unit)
      (fun _ => .ok (⟨some 0, []⟩ : DynObj))
      (fun _ => (⟨some 0, []⟩ : DynObj)) 0 (dynIsResetter 0) dynReset [4]
      [9] id some 5 [] 0 1 (by decide) [5, 6]).2.2
